import Mathlib

/-!
Shallow embedding of the UDP sender clients of this repository:
`client_tahoe.py` (windowed Tahoe-style sender), `client_saw.py`
(stop-and-wait sender) and `client_burst1.py` (burst sender).

Modelling choices, all taken from the source:
* wall-clock times and the congestion window are exact rationals;
* packet bytes are lists of naturals;
* the Python dicts `send_times` and `outstanding` are insertion-ordered
  association lists (`dictGet`, `dictSet`, `dictDel`, `firstKeyD` mirror
  `d[k]`, `d[k] = v`, `del d[k]` and `next(iter(d), default)`);
* exceptions the Python code does not catch (`struct.error` raised by
  `struct.unpack` on a buffer that is not exactly 8 bytes, `KeyError`
  raised by `send_times[ackno]` or `outstanding[desired_ackno]`) become
  `Crash` values that abort the session, because the only handler in
  `client_tahoe.main` catches `socket.timeout` and `socket.error` alone.
-/

abbrev Bytes := List Nat

/-- The constant packed into every data packet header. -/
def magic : Nat := 0xBAADCAFE

/-- Lookup in an insertion-ordered association list (Python `d[k]`). -/
def dictGet {α : Type} : List (Nat × α) → Nat → Option α
  | [], _ => none
  | (k, v) :: rest, key => if k = key then some v else dictGet rest key

/-- Assignment `d[k] = v` on a Python dict: update in place if the key is
present (keeping its position), otherwise append at the end. -/
def dictSet {α : Type} : List (Nat × α) → Nat → α → List (Nat × α)
  | [], key, v => [(key, v)]
  | (k, w) :: rest, key, v =>
    if k = key then (key, v) :: rest else (k, w) :: dictSet rest key v

/-- Deletion `del d[k]`: removes the first occurrence of the key. -/
def dictDel {α : Type} : List (Nat × α) → Nat → List (Nat × α)
  | [], _ => []
  | (k, w) :: rest, key => if k = key then rest else (k, w) :: dictDel rest key

/-- Python `next(iter(d), default)`: first key in insertion order, or the default. -/
def firstKeyD {α : Type} : List (Nat × α) → Nat → Nat
  | [], d => d
  | (k, _) :: _, _ => k

/-- Big-endian 4-byte encoding of one `u32` field of `struct.pack(">II", ...)`. -/
def u32be (x : Nat) : Bytes :=
  [x / 2 ^ 24 % 256, x / 2 ^ 16 % 256, x / 2 ^ 8 % 256, x % 256]

/-- Big-endian decoding of 4 bytes. -/
def u32beDecode : Bytes → Nat
  | [b0, b1, b2, b3] => ((b0 * 256 + b1) * 256 + b2) * 256 + b3
  | _ => 0

/-- Packing `struct.pack(">II", magic, seqno)`: the 8-byte data-packet header. -/
def encodeHeader (m seq : Nat) : Bytes := u32be m ++ u32be seq

/-- Unpacking `struct.unpack(">II", ack)`: succeeds only on exactly 8 bytes; a
shorter or a longer buffer raises `struct.error`, modelled as `none`. -/
def decodeAck (ack : Bytes) : Option (Nat × Nat) :=
  if ack.length = 8 then some (u32beDecode (ack.take 4), u32beDecode (ack.drop 4))
  else none

/-- Function `estimated_rtt_calc` from client_tahoe.py, with `a = 0.125`. -/
def estimated_rtt_calc (sample_rtt estimated_rtt : ℚ) : ℚ :=
  (1 / 8) * sample_rtt + (1 - 1 / 8) * estimated_rtt

/-- Function `dev_rtt_calc` from client_tahoe.py, with `b = 0.25`. -/
def dev_rtt_calc (sample_rtt estimated_rtt dev_rtt : ℚ) : ℚ :=
  (1 / 4) * |sample_rtt - estimated_rtt| + (1 - 1 / 4) * dev_rtt

/-- The mutable local state of `client_tahoe.main` (lines 70-83). -/
structure TahoeState where
  timeout : ℚ
  estimated_rtt : ℚ
  dev_rtt : ℚ
  send_times : List (Nat × ℚ)
  cwnd : ℚ
  ssthresh : ℚ
  seqno : Nat
  desired_ackno : Nat
  body : Option Bytes
  have_more_data : Bool
  outstanding : List (Nat × Bytes)
  state : Nat
  deriving Repr, DecidableEq

/-- The initial state of `client_tahoe.main` with CLI arguments `n`
(initial `ssthresh`) and `t` (default timeout). -/
def initState (n t : ℚ) : TahoeState :=
  { timeout := t, estimated_rtt := t, dev_rtt := 0, send_times := [],
    cwnd := 1, ssthresh := n, seqno := 0, desired_ackno := 0,
    body := none, have_more_data := true, outstanding := [], state := 0 }

/-- Observable events of a session: data-source queries, datagram sends,
trace-file records, and matched ACKs. -/
inductive Ev where
  | query (q : Nat)
  | sendPkt (pkt : Bytes)
  | traceSend (seq : Nat)
  | traceAck (ackno : Nat)
  | ackMatched (ackno : Nat)
  | gap
  deriving Repr, DecidableEq

/-- What the channel delivers to a bounded `recvfrom`: either the deadline
expires or a datagram arrives at time `tRecv`. -/
inductive NetEvent where
  | timeout
  | datagram (data : Bytes) (tRecv : ℚ)
  deriving Repr, DecidableEq

/-- Uncaught Python exceptions that abort the session. -/
inductive Crash where
  | structError
  | keyError
  deriving Repr, DecidableEq

/-- State 0 of `client_tahoe.main` (lines 87-93): pull the next payload
from the data source, keyed by `seqno`. -/
def state0Step (ds : Nat → Option Bytes) (s : TahoeState) : TahoeState × List Ev :=
  match ds s.seqno with
  | none => ({ s with body := none, have_more_data := false, state := 2 },
             [Ev.query s.seqno])
  | some b => ({ s with body := some b, state := 1 }, [Ev.query s.seqno])

/-- State 1 of `client_tahoe.main` (lines 95-118): frame and send packet
`seqno`, record its send time and bytes, advance `seqno`, then go to
state 2 when `len(outstanding) >= cwnd` and back to state 0 otherwise. -/
def state1Step (tSend : ℚ) (s : TahoeState) : TahoeState × List Ev :=
  let pkt := encodeHeader magic s.seqno ++ s.body.getD []
  let st := dictSet s.send_times s.seqno tSend
  let out := dictSet s.outstanding s.seqno pkt
  ({ s with
      send_times := st, outstanding := out, seqno := s.seqno + 1,
      state := if (out.length : ℚ) ≥ s.cwnd then 2 else 0 },
   [Ev.sendPkt pkt, Ev.traceSend s.seqno])

/-- The `except (socket.timeout, socket.error)` branch of state 2
(lines 165-170): `ssthresh = cwnd // 2` (Python floor division, no
minimum), `cwnd = 1`, `timeout *= 2`, go to state 3. -/
def handleTimeout (s : TahoeState) : TahoeState :=
  { s with
      ssthresh := ((⌊s.cwnd / 2⌋ : ℤ) : ℚ), cwnd := 1,
      timeout := s.timeout * 2, state := 3 }

/-- One pass through state 2 of `client_tahoe.main` (lines 120-170): a
receive deadline expiry takes the `except` branch; a datagram is decoded
(`struct.error` is not caught), its send time is looked up in
`send_times` (`KeyError` is not caught), the RTT estimate is refreshed,
the matching ledger entry is deleted if present, and the matched /
unmatched branches of lines 145-164 pick the next state. -/
def state2Step (ev : NetEvent) (s : TahoeState) : Except Crash (TahoeState × List Ev) :=
  match ev with
  | .timeout => .ok (handleTimeout s, [])
  | .datagram data tRecv =>
    match decodeAck data with
    | none => .error .structError
    | some (_, ackno) =>
      match dictGet s.send_times ackno with
      | none => .error .keyError
      | some tSent =>
        let sample_rtt := tRecv - tSent
        let est := estimated_rtt_calc sample_rtt s.estimated_rtt
        let dev := dev_rtt_calc sample_rtt est s.dev_rtt
        let tmo := est + 4 * dev
        let out :=
          if (dictGet s.outstanding ackno).isSome then dictDel s.outstanding ackno
          else s.outstanding
        if ackno = s.desired_ackno then
          .ok ({ s with
                  estimated_rtt := est, dev_rtt := dev, timeout := tmo,
                  outstanding := out,
                  desired_ackno := firstKeyD out s.seqno,
                  cwnd := if s.cwnd < s.ssthresh then s.cwnd + 1
                          else s.cwnd + 1 / s.cwnd,
                  state := 0 },
               [Ev.traceAck ackno, Ev.ackMatched ackno])
        else
          .ok ({ s with
                  estimated_rtt := est, dev_rtt := dev, timeout := tmo,
                  outstanding := out,
                  state := if (out.length : ℚ) ≥ s.cwnd then 2 else 0 },
               [Ev.traceAck ackno])

/-- State 3 of `client_tahoe.main` (lines 172-196): resend only the
outstanding packet for `desired_ackno`, refresh its recorded send time,
write a trace record — the code logs `seqno`, not `desired_ackno` — and
return to state 2. A missing ledger entry raises an uncaught `KeyError`. -/
def state3Step (tSend : ℚ) (s : TahoeState) : Except Crash (TahoeState × List Ev) :=
  match dictGet s.outstanding s.desired_ackno with
  | none => .error .keyError
  | some pkt =>
    .ok ({ s with
            send_times := dictSet s.send_times s.desired_ackno tSend,
            state := 2 },
         [Ev.sendPkt pkt, Ev.traceSend s.seqno])

/-- The `while have_more_data or len(outstanding) > 0` loop of
`client_tahoe.main` (lines 86-200), driven by an environment: `ds` is the
data source, `recvs` the channel deliveries consumed one per state-2
iteration, `clock` the wall-clock values consumed one per `time.time()`
call on the send paths (states 1 and 3). Fuel bounds the iteration count;
a run that exhausts its fuel or its channel events simply stops where it
is. Returns the final state, the accumulated event log, and the crash, if
an uncaught exception ended the session. -/
def runAux (ds : Nat → Option Bytes) :
    Nat → List NetEvent → List ℚ → TahoeState → List Ev →
    TahoeState × List Ev × Option Crash
  | 0, _, _, s, log => (s, log, none)
  | fuel + 1, recvs, clock, s, log =>
    if s.have_more_data = false ∧ s.outstanding = [] then (s, log, none)
    else if s.state = 0 then
      let p := state0Step ds s
      runAux ds fuel recvs clock p.1 (log ++ p.2)
    else if s.state = 1 then
      let p := state1Step (clock.headD 0) s
      runAux ds fuel recvs clock.tail p.1 (log ++ p.2)
    else if s.state = 2 then
      match recvs with
      | [] => (s, log, none)
      | ev :: rest =>
        match state2Step ev s with
        | .error c => (s, log, some c)
        | .ok p => runAux ds fuel rest clock p.1 (log ++ p.2)
    else if s.state = 3 then
      match state3Step (clock.headD 0) s with
      | .error c => (s, log, some c)
      | .ok p => runAux ds fuel recvs clock.tail p.1 (log ++ p.2)
    else (s, log, none)

/-- A complete `client_tahoe.main` session from the initial state. -/
def runTahoe (ds : Nat → Option Bytes) (n t : ℚ) (fuel : Nat)
    (recvs : List NetEvent) (clock : List ℚ) :
    TahoeState × List Ev × Option Crash :=
  runAux ds fuel recvs clock (initState n t) []

/-- The raw sequence of data-source queries in a log: every seqno passed
to `datasource.wait_for_data`. -/
def queriesOf (log : List Ev) : List Nat :=
  log.filterMap fun e =>
    match e with
    | .query q => some q
    | _ => none

/-- The data-source queries that were answered with data (rather than
with the end-of-data signal) by the data source `ds`. -/
def dataQueries (ds : Nat → Option Bytes) (log : List Ev) : List Nat :=
  log.filterMap fun e =>
    match e with
    | .query q => match ds q with | some _ => some q | none => none
    | _ => none

/-- The mutable local state of `client_saw.main` (lines 56-61). -/
structure SawState where
  seqno : Nat
  body : Option Bytes
  have_more_data : Bool
  state : Nat
  deriving Repr, DecidableEq

/-- The initial state of `client_saw.main`. -/
def sawInit : SawState :=
  { seqno := 0, body := none, have_more_data := true, state := 0 }

/-- The `while have_more_data` loop of `client_saw.main` (lines 63-101):
state 0 pulls data, state 1 sends packet `seqno`, state 2 blocks for one
datagram — whose ACK number is decoded but otherwise ignored — then
increments `seqno`. The receive has no deadline, so a run that exhausts
`recvs` stops (the real program would block forever); a datagram that is
not exactly 8 bytes raises an uncaught `struct.error`. -/
def sawRunAux (ds : Nat → Option Bytes) :
    Nat → List Bytes → SawState → List Ev → SawState × List Ev × Option Crash
  | 0, _, s, log => (s, log, none)
  | fuel + 1, recvs, s, log =>
    if s.have_more_data = false then (s, log, none)
    else
      match s.state with
      | 0 =>
        match ds s.seqno with
        | none =>
          sawRunAux ds fuel recvs { s with body := none, have_more_data := false }
            (log ++ [Ev.query s.seqno])
        | some b =>
          sawRunAux ds fuel recvs { s with body := some b, state := 1 }
            (log ++ [Ev.query s.seqno])
      | 1 =>
        let pkt := encodeHeader magic s.seqno ++ s.body.getD []
        sawRunAux ds fuel recvs { s with state := 2 } (log ++ [Ev.sendPkt pkt])
      | 2 =>
        match recvs with
        | [] => (s, log, none)
        | ack :: rest =>
          match decodeAck ack with
          | none => (s, log, some Crash.structError)
          | some p =>
            sawRunAux ds fuel rest { s with seqno := s.seqno + 1, state := 0 }
              (log ++ [Ev.traceAck p.2])
      | _ => (s, log, none)

/-- A complete `client_saw.main` session from the initial state. -/
def runSaw (ds : Nat → Option Bytes) (fuel : Nat) (recvs : List Bytes) :
    SawState × List Ev × Option Crash :=
  sawRunAux ds fuel recvs sawInit []

/-- The mutable local state of `client_burst1.main` (lines 60-66). -/
structure BurstState where
  seqno : Nat
  body : Option Bytes
  have_more_data : Bool
  state : Nat
  deriving Repr, DecidableEq

/-- The initial state of `client_burst1.main`. -/
def burstInit : BurstState :=
  { seqno := 0, body := none, have_more_data := true, state := 0 }

/-- The `while have_more_data` loop of `client_burst1.main`
(lines 68-100): state 0 pulls data and routes to state 1 at the start of
a burst (`seqno % n == 0`), state 1 sleeps for the inter-burst gap,
state 2 sends packet `seqno`. No ACKs are ever read. -/
def burstRunAux (ds : Nat → Option Bytes) (n : Nat) :
    Nat → BurstState → List Ev → BurstState × List Ev
  | 0, s, log => (s, log)
  | fuel + 1, s, log =>
    if s.have_more_data = false then (s, log)
    else
      match s.state with
      | 0 =>
        match ds s.seqno with
        | none =>
          burstRunAux ds n fuel { s with body := none, have_more_data := false }
            (log ++ [Ev.query s.seqno])
        | some b =>
          burstRunAux ds n fuel
            { s with body := some b, state := if s.seqno % n = 0 then 1 else 2 }
            (log ++ [Ev.query s.seqno])
      | 1 => burstRunAux ds n fuel { s with state := 2 } (log ++ [Ev.gap])
      | 2 =>
        let pkt := encodeHeader magic s.seqno ++ s.body.getD []
        burstRunAux ds n fuel { s with seqno := s.seqno + 1, state := 0 }
          (log ++ [Ev.sendPkt pkt, Ev.traceSend s.seqno])
      | _ => (s, log)

/-- A complete `client_burst1.main` session from the initial state. -/
def runBurst (ds : Nat → Option Bytes) (n : Nat) (fuel : Nat) :
    BurstState × List Ev :=
  burstRunAux ds n fuel burstInit []

/-- The datagram sends in a log (`s.sendto` calls), in order. -/
def sendsOf (log : List Ev) : List Bytes :=
  log.filterMap fun e =>
    match e with
    | .sendPkt p => some p
    | _ => none

/-- The matched-ACK events in a log (the `ackno == desired_ackno` branch). -/
def matchedOf (log : List Ev) : List Nat :=
  log.filterMap fun e =>
    match e with
    | .ackMatched a => some a
    | _ => none

/-- The ACK trace records in a log, in order of reception. -/
def ackLinesOf (log : List Ev) : List Nat :=
  log.filterMap fun e =>
    match e with
    | .traceAck a => some a
    | _ => none

/-- A data source with three one-byte chunks, then end-of-data. -/
def ds3 : Nat → Option Bytes := fun k => if k < 3 then some [k] else none

/-- A data source with a single chunk, then end-of-data. -/
def ds1 : Nat → Option Bytes := fun k => if k = 0 then some [9] else none

/-- An 8-byte ACK packet carrying acknowledgment number `a`. -/
def ackPkt (a : Nat) : Bytes := encodeHeader magic a

/-- The data packet the clients build for seqno `k` of `ds3`. -/
def pkt3 (k : Nat) : Bytes := encodeHeader magic k ++ [k]

/-- A reachable mid-session state of `client_tahoe.main`: three chunks of
`ds3` sent, ACKs 0 and 1 processed, the data source exhausted; seqnos 0
and 1 are recorded in `send_times` but no longer outstanding. -/
def staleS : TahoeState :=
  (runTahoe ds3 5 1 9
    [NetEvent.datagram (ackPkt 0) 1, NetEvent.datagram (ackPkt 1) 2] [0, 0, 0]).1

deriving instance DecidableEq for Except

/-- The reachable state right after the first send of a one-chunk
session: packet 0 outstanding, `cwnd = 1`, waiting in state 2. -/
def afterFirstSend : TahoeState := (runTahoe ds1 2 1 2 [] []).1

/-- A one-chunk session in which the only ACK never arrives: the receive
deadline expires and the machine retransmits. -/
def timeoutRun : TahoeState × List Ev × Option Crash :=
  runTahoe ds1 2 1 30 [NetEvent.timeout] [0, 5]

/-- C2 (amended): on a retransmission timeout the machine sets
`ssthresh` to `⌊cwnd / 2⌋` with no lower bound, sets `cwnd` to `1` and
doubles the stored timeout; afterwards `cwnd ≥ 1` always holds, but
`ssthresh ≥ 1` holds only when the old window was at least 2. -/
theorem c2_timeout_backoff (s : TahoeState) :
    state2Step NetEvent.timeout s = .ok (handleTimeout s, []) ∧
    (handleTimeout s).ssthresh = ((⌊s.cwnd / 2⌋ : ℤ) : ℚ) ∧
    (handleTimeout s).cwnd = 1 ∧
    (handleTimeout s).timeout = 2 * s.timeout ∧
    1 ≤ (handleTimeout s).cwnd ∧
    (1 ≤ (handleTimeout s).ssthresh ↔ 2 ≤ s.cwnd) := by
  refine ⟨rfl, rfl, rfl, by simp [handleTimeout, mul_comm], by norm_num [handleTimeout], ?_⟩
  simp only [handleTimeout]
  constructor
  · intro h
    have h1 : (1 : ℤ) ≤ ⌊s.cwnd / 2⌋ := by exact_mod_cast h
    have h2 : (1 : ℚ) ≤ s.cwnd / 2 := Int.le_floor.mp h1
    linarith
  · intro h
    have h2 : (1 : ℚ) ≤ s.cwnd / 2 := by linarith
    have h1 : (1 : ℤ) ≤ ⌊s.cwnd / 2⌋ := Int.le_floor.mpr h2
    exact_mod_cast h1

/-- C2 counterexample: a retransmission timeout can fire while `cwnd = 1`
(here: on the very first packet of a session started with `ssthresh = 2`),
and then `ssthresh` becomes `1 // 2 = 0`, below the claimed minimum of 1;
the claimed invariant `ssthresh ≥ 1` fails in the reachable post-timeout
state. -/
theorem c2_counterexample :
    afterFirstSend.cwnd = 1 ∧
    (handleTimeout afterFirstSend).ssthresh = 0 ∧
    ¬ (1 ≤ (handleTimeout afterFirstSend).ssthresh) ∧
    timeoutRun.1.ssthresh = 0 := by with_unfolding_all decide

/-- C3 (amended): a received ACK datagram whose length is not exactly
8 bytes — shorter or longer — makes `struct.unpack` fail, and the
failure is not caught by the `except (socket.timeout, socket.error)`
handler, so it aborts the session rather than being dropped. -/
theorem c3_malformed_ack (data : Bytes) (s : TahoeState) (tRecv : ℚ)
    (h : data.length ≠ 8) :
    decodeAck data = none ∧
    state2Step (NetEvent.datagram data tRecv) s = .error Crash.structError := by
  have hd : decodeAck data = none := by simp [decodeAck, h]
  exact ⟨hd, by simp [state2Step, hd]⟩

/-- Witness for `c3_malformed_ack` at a concrete 4-byte datagram. -/
theorem c3_witness :
    decodeAck [0, 0, 0, 0] = none ∧
    state2Step (NetEvent.datagram [0, 0, 0, 0] 1) (initState 2 1) =
      .error Crash.structError :=
  c3_malformed_ack [0, 0, 0, 0] (initState 2 1) 1 (by decide)

/-- C3 counterexample: a 4-byte ACK packet aborts the session (the claim
says it is dropped and the session continues), and a 9-byte ACK packet
also aborts the session (the claim says its trailing byte is ignored and
the ACK is processed normally). Both are delivered in the reachable
mid-session state `staleS`. -/
theorem c3_counterexample :
    state2Step (NetEvent.datagram [186, 173, 202, 254] 3) staleS =
      .error Crash.structError ∧
    (ackPkt 2 ++ [0]).length = 9 ∧
    state2Step (NetEvent.datagram (ackPkt 2 ++ [0]) 3) staleS =
      .error Crash.structError := by with_unfolding_all decide

/-- C4 (amended): after a send, the machine admits originating another
segment (returns to state 0) exactly when the outstanding count is below
the raw — possibly fractional — `cwnd`; equivalently below `⌈cwnd⌉`, not
below `⌊cwnd⌋`. -/
theorem c4_admission (s : TahoeState) (tSend : ℚ) :
    ((state1Step tSend s).1.state = 0 ↔
      (((state1Step tSend s).1.outstanding.length : ℚ) < s.cwnd)) ∧
    ((state1Step tSend s).1.state = 0 ↔
      (((state1Step tSend s).1.outstanding.length : ℤ) < ⌈s.cwnd⌉)) := by
  have hceil : ∀ k : Nat, (((k : ℤ) < ⌈s.cwnd⌉) ↔ ((k : ℚ) < s.cwnd)) := by
    intro k
    rw [Int.lt_ceil]
    constructor
    · intro h; exact_mod_cast h
    · intro h; exact_mod_cast h
  simp only [state1Step, hceil]
  split_ifs with h
  · have h2 : ¬ ((dictSet s.outstanding s.seqno
        (encodeHeader magic s.seqno ++ s.body.getD [])).length : ℚ) < s.cwnd :=
      not_lt.mpr h
    simp [h2]
  · have h2 := lt_of_not_ge h
    simp [h2]

/-- Shared helper: processing an ACK whose number has a recorded send
time but is neither in the ledger nor the desired ACK succeeds and
changes only the RTT estimator state (and the mode variable). -/
theorem staleAckStep (s : TahoeState) (data : Bytes) (tRecv tSent : ℚ)
    (m ackno : Nat)
    (hdec : decodeAck data = some (m, ackno))
    (hsent : dictGet s.send_times ackno = some tSent)
    (hout : dictGet s.outstanding ackno = none)
    (hdes : ackno ≠ s.desired_ackno) :
    ∃ s' l, state2Step (NetEvent.datagram data tRecv) s = .ok (s', l) ∧
      s'.outstanding = s.outstanding ∧ s'.cwnd = s.cwnd ∧
      s'.ssthresh = s.ssthresh ∧ s'.desired_ackno = s.desired_ackno ∧
      s'.seqno = s.seqno ∧
      s'.estimated_rtt = estimated_rtt_calc (tRecv - tSent) s.estimated_rtt ∧
      s'.dev_rtt = dev_rtt_calc (tRecv - tSent) s'.estimated_rtt s.dev_rtt ∧
      s'.timeout = s'.estimated_rtt + 4 * s'.dev_rtt := by
  simp only [state2Step, hdec, hsent, hout, Option.isSome_none, Bool.false_eq_true,
    if_false, if_neg hdes]
  exact ⟨_, _, rfl, rfl, rfl, rfl, rfl, rfl, rfl, rfl, rfl⟩

/-- C1 (amended): an ACK for a number that was sent but has already been
removed from the ledger is tolerated — the ledger, `cwnd`, `ssthresh`,
`desired_ackno` and `seqno` are unchanged and the session continues —
but the RTT estimator state IS updated from the stale recorded send
time: `estimatedRTT`, `devRTT` and `timeout` are all recomputed. (An ACK
for a number that was never sent instead aborts the session with an
uncaught `KeyError`; see the counterexample.) -/
theorem c1_stale_ack (s : TahoeState) (data : Bytes) (tRecv tSent : ℚ)
    (m ackno : Nat)
    (hdec : decodeAck data = some (m, ackno))
    (hsent : dictGet s.send_times ackno = some tSent)
    (hout : dictGet s.outstanding ackno = none)
    (hdes : ackno ≠ s.desired_ackno) :
    ∃ s' l, state2Step (NetEvent.datagram data tRecv) s = .ok (s', l) ∧
      s'.outstanding = s.outstanding ∧ s'.cwnd = s.cwnd ∧
      s'.ssthresh = s.ssthresh ∧ s'.desired_ackno = s.desired_ackno ∧
      s'.seqno = s.seqno ∧
      s'.estimated_rtt = estimated_rtt_calc (tRecv - tSent) s.estimated_rtt ∧
      s'.dev_rtt = dev_rtt_calc (tRecv - tSent) s'.estimated_rtt s.dev_rtt ∧
      s'.timeout = s'.estimated_rtt + 4 * s'.dev_rtt :=
  staleAckStep s data tRecv tSent m ackno hdec hsent hout hdes

/-- Witness for `c1_stale_ack`: the reachable state `staleS` receives a
duplicate ACK for seqno 0, which was acknowledged and removed earlier. -/
theorem c1_witness :
    ∃ s' l, state2Step (NetEvent.datagram (ackPkt 0) 3) staleS = .ok (s', l) ∧
      s'.outstanding = staleS.outstanding ∧ s'.cwnd = staleS.cwnd ∧
      s'.ssthresh = staleS.ssthresh ∧ s'.desired_ackno = staleS.desired_ackno ∧
      s'.seqno = staleS.seqno ∧
      s'.estimated_rtt = estimated_rtt_calc (3 - 0) staleS.estimated_rtt ∧
      s'.dev_rtt = dev_rtt_calc (3 - 0) s'.estimated_rtt staleS.dev_rtt ∧
      s'.timeout = s'.estimated_rtt + 4 * s'.dev_rtt :=
  c1_stale_ack staleS (ackPkt 0) 3 0 magic 0 (by decide)
    (by with_unfolding_all decide) (by with_unfolding_all decide)
    (by with_unfolding_all decide)

/-- C1 counterexample, in the reachable state `staleS` (seqnos 0-2 sent,
0 and 1 already acknowledged and removed): an ACK numbered 7 — never
sent — aborts the session with an uncaught `KeyError` instead of being
silently ignored, and a duplicate ACK for the already-removed seqno 0
changes `estimatedRTT` from 9/8 to 87/64, so the RTT estimator state is
not left untouched. -/
theorem c1_counterexample :
    state2Step (NetEvent.datagram (ackPkt 7) 3) staleS = .error Crash.keyError ∧
    (state2Step (NetEvent.datagram (ackPkt 0) 3) staleS).toOption.map
      (fun p => p.1.estimated_rtt) = some (87 / 64) ∧
    staleS.estimated_rtt = 9 / 8 ∧ (9 / 8 : ℚ) ≠ 87 / 64 := by
  with_unfolding_all decide

/-- C5: an ACK that exactly matches the current `desired_ackno` grows
`cwnd` by 1 during slow start (`cwnd < ssthresh`) and by `1 / cwnd`
otherwise; an ACK for any other (previously sent) number leaves `cwnd`
unchanged; `ssthresh` is never changed on the ACK path. -/
theorem c5_window_growth (s : TahoeState) (data : Bytes) (tRecv tSent : ℚ)
    (m ackno : Nat)
    (hdec : decodeAck data = some (m, ackno))
    (hsent : dictGet s.send_times ackno = some tSent) :
    ∃ s' l, state2Step (NetEvent.datagram data tRecv) s = .ok (s', l) ∧
      s'.cwnd = (if ackno = s.desired_ackno then
                   (if s.cwnd < s.ssthresh then s.cwnd + 1 else s.cwnd + 1 / s.cwnd)
                 else s.cwnd) ∧
      s'.ssthresh = s.ssthresh := by
  simp only [state2Step, hdec, hsent]
  by_cases hd : ackno = s.desired_ackno
  · simp only [if_pos hd]
    exact ⟨_, _, rfl, rfl, rfl⟩
  · simp only [if_neg hd]
    exact ⟨_, _, rfl, rfl, rfl⟩

/-- Witness for `c5_window_growth`: the reachable state `staleS` (with
`cwnd = 3 < 5 = ssthresh`) receives the ACK it is waiting for, seqno 2. -/
theorem c5_witness :
    ∃ s' l, state2Step (NetEvent.datagram (ackPkt 2) 3) staleS = .ok (s', l) ∧
      s'.cwnd = (if 2 = staleS.desired_ackno then
                   (if staleS.cwnd < staleS.ssthresh then staleS.cwnd + 1
                    else staleS.cwnd + 1 / staleS.cwnd)
                 else staleS.cwnd) ∧
      s'.ssthresh = staleS.ssthresh :=
  c5_window_growth staleS (ackPkt 2) 3 0 magic 2 (by decide)
    (by with_unfolding_all decide)

/-- Rewriting `estimated_rtt_calc` with its constants evaluated. -/
theorem estimated_rtt_calc_eq (x y : ℚ) :
    estimated_rtt_calc x y = (1 / 8) * x + (7 / 8) * y := by
  norm_num [estimated_rtt_calc]

/-- Rewriting `dev_rtt_calc` with its constants evaluated. -/
theorem dev_rtt_calc_eq (x y z : ℚ) :
    dev_rtt_calc x y z = (1 / 4) * |x - y| + (3 / 4) * z := by
  norm_num [dev_rtt_calc]

/-- C6: whenever a received ACK yields an RTT measurement (its number has
a recorded send time), the timing state becomes exactly
`estimatedRTT' = 0.125 * sampleRTT + 0.875 * estimatedRTT`,
`devRTT' = 0.25 * |sampleRTT - estimatedRTT'| + 0.75 * devRTT` and
`timeout' = estimatedRTT' + 4 * devRTT'`, with
`sampleRTT = tRecv - tSent`; initially `estimatedRTT` is the caller's
default timeout `t` and `devRTT` is 0. -/
theorem c6_rtt_update (s : TahoeState) (data : Bytes) (tRecv tSent : ℚ)
    (m ackno : Nat) (n t : ℚ)
    (hdec : decodeAck data = some (m, ackno))
    (hsent : dictGet s.send_times ackno = some tSent) :
    (∃ s' l, state2Step (NetEvent.datagram data tRecv) s = .ok (s', l) ∧
      s'.estimated_rtt = (1 / 8) * (tRecv - tSent) + (7 / 8) * s.estimated_rtt ∧
      s'.dev_rtt = (1 / 4) * |(tRecv - tSent) -
          ((1 / 8) * (tRecv - tSent) + (7 / 8) * s.estimated_rtt)| +
        (3 / 4) * s.dev_rtt ∧
      s'.timeout = s'.estimated_rtt + 4 * s'.dev_rtt) ∧
    (initState n t).estimated_rtt = t ∧ (initState n t).dev_rtt = 0 := by
  refine ⟨?_, rfl, rfl⟩
  have hdev : dev_rtt_calc (tRecv - tSent)
      (estimated_rtt_calc (tRecv - tSent) s.estimated_rtt) s.dev_rtt =
      (1 / 4) * |(tRecv - tSent) -
          ((1 / 8) * (tRecv - tSent) + (7 / 8) * s.estimated_rtt)| +
        (3 / 4) * s.dev_rtt := by
    rw [dev_rtt_calc_eq, estimated_rtt_calc_eq]
  simp only [state2Step, hdec, hsent]
  by_cases hd : ackno = s.desired_ackno
  · simp only [if_pos hd]
    exact ⟨_, _, rfl, estimated_rtt_calc_eq _ _, hdev, rfl⟩
  · simp only [if_neg hd]
    exact ⟨_, _, rfl, estimated_rtt_calc_eq _ _, hdev, rfl⟩

/-- Witness for `c6_rtt_update`: the reachable state `staleS` (with
`estimatedRTT = 9/8`, `devRTT = 7/32`) receives the awaited ACK 2 at
time 3, whose send time 0 is on record. -/
theorem c6_witness :
    (∃ s' l, state2Step (NetEvent.datagram (ackPkt 2) 3) staleS = .ok (s', l) ∧
      s'.estimated_rtt = (1 / 8) * ((3 : ℚ) - 0) + (7 / 8) * staleS.estimated_rtt ∧
      s'.dev_rtt = (1 / 4) * |((3 : ℚ) - 0) -
          ((1 / 8) * ((3 : ℚ) - 0) + (7 / 8) * staleS.estimated_rtt)| +
        (3 / 4) * staleS.dev_rtt ∧
      s'.timeout = s'.estimated_rtt + 4 * s'.dev_rtt) ∧
    (initState 2 1).estimated_rtt = 1 ∧ (initState 2 1).dev_rtt = 0 :=
  c6_rtt_update staleS (ackPkt 2) 3 0 magic 2 2 1 (by decide)
    (by with_unfolding_all decide)

/-- C7: evaluation of the Retransmit state at its failing input. In the
one-chunk session whose only ACK times out, the machine resends exactly
one packet — the ledger entry for `desired_ackno = 0`, whose header
decodes to seqno 0 — refreshes its recorded send time from 0 to 5, and
returns to state 2 (AwaitAck); but the trace record written during the
retransmission carries `seqno = 1`, the next sequence number to
originate, not the retransmitted segment's sequence number 0. -/
theorem c7_retransmit_eval :
    timeoutRun.2.1 =
      [Ev.query 0, Ev.sendPkt (encodeHeader magic 0 ++ [9]), Ev.traceSend 0,
       Ev.sendPkt (encodeHeader magic 0 ++ [9]), Ev.traceSend 1] ∧
    timeoutRun.1.state = 2 ∧
    timeoutRun.1.desired_ackno = 0 ∧
    timeoutRun.1.seqno = 1 ∧
    timeoutRun.1.send_times = [(0, 5)] ∧
    timeoutRun.1.outstanding = [(0, encodeHeader magic 0 ++ [9])] ∧
    u32beDecode (List.take 4 (List.drop 4 (encodeHeader magic 0 ++ [9]))) = 0 ∧
    timeoutRun.2.2 = none := by with_unfolding_all decide

/-- The seqnos already consumed from the data source: everything below
the current `seqno`, plus the chunk being sent while in state 1. -/
def queryBound (s : TahoeState) : Nat :=
  if s.state = 1 then s.seqno + 1 else s.seqno

/-- The log projection `dataQueries` distributes over concatenation. -/
theorem dataQueries_append (ds : Nat → Option Bytes) (l1 l2 : List Ev) :
    dataQueries ds (l1 ++ l2) = dataQueries ds l1 ++ dataQueries ds l2 :=
  List.filterMap_append _ _ _

/-- State 0 preserves the query invariant: the data-answered queries in
the log are exactly `range (queryBound s)`. -/
theorem queryInv_state0 (ds : Nat → Option Bytes) (s : TahoeState) (hs : s.state = 0)
    (log : List Ev) (h : dataQueries ds log = List.range (queryBound s)) :
    dataQueries ds (log ++ (state0Step ds s).2) =
      List.range (queryBound (state0Step ds s).1) := by
  cases hq : ds s.seqno with
  | none =>
    simp only [state0Step, hq]
    rw [dataQueries_append, h]
    have h2 : dataQueries ds [Ev.query s.seqno] = [] := by simp [dataQueries, hq]
    rw [h2]
    simp [queryBound, hs]
  | some b =>
    simp only [state0Step, hq]
    rw [dataQueries_append, h]
    have h2 : dataQueries ds [Ev.query s.seqno] = [s.seqno] := by
      simp [dataQueries, hq]
    rw [h2]
    simp [queryBound, hs, List.range_succ]

/-- State 1 preserves the query invariant. -/
theorem queryInv_state1 (ds : Nat → Option Bytes) (tSend : ℚ) (s : TahoeState)
    (hs : s.state = 1)
    (log : List Ev) (h : dataQueries ds log = List.range (queryBound s)) :
    dataQueries ds (log ++ (state1Step tSend s).2) =
      List.range (queryBound (state1Step tSend s).1) := by
  have h2 : ∀ pk, dataQueries ds [Ev.sendPkt pk, Ev.traceSend s.seqno] = [] :=
    fun pk => by simp [dataQueries]
  by_cases hc : ((dictSet s.outstanding s.seqno
      (encodeHeader magic s.seqno ++ s.body.getD [])).length : ℚ) ≥ s.cwnd
  · simp only [state1Step]
    rw [dataQueries_append, h, h2]
    simp [queryBound, hs, hc]
  · simp only [state1Step]
    rw [dataQueries_append, h, h2]
    simp [queryBound, hs, hc]

/-- A successful pass through state 2 emits no data-source query, keeps
`seqno`, and never moves to state 1. -/
theorem state2Step_no_query (ds : Nat → Option Bytes) (ev : NetEvent) (s : TahoeState)
    (p : TahoeState × List Ev) (h : state2Step ev s = .ok p) :
    dataQueries ds p.2 = [] ∧ p.1.seqno = s.seqno ∧ p.1.state ≠ 1 := by
  cases ev with
  | timeout =>
    simp only [state2Step] at h
    cases h
    exact ⟨rfl, rfl, by simp [handleTimeout]⟩
  | datagram data tRecv =>
    simp only [state2Step] at h
    cases hdec : decodeAck data with
    | none => simp only [hdec] at h; exact Except.noConfusion h
    | some pr =>
      obtain ⟨m, ackno⟩ := pr
      simp only [hdec] at h
      cases hsent : dictGet s.send_times ackno with
      | none => simp only [hsent] at h; exact Except.noConfusion h
      | some tSent =>
        simp only [hsent] at h
        by_cases hd : ackno = s.desired_ackno
        · simp only [if_pos hd] at h
          cases h
          exact ⟨rfl, rfl, by simp⟩
        · simp only [if_neg hd] at h
          cases h
          refine ⟨rfl, rfl, ?_⟩
          split_ifs <;> simp

/-- A successful pass through state 3 emits no data-source query, keeps
`seqno`, and returns to state 2. -/
theorem state3Step_no_query (ds : Nat → Option Bytes) (t : ℚ) (s : TahoeState)
    (p : TahoeState × List Ev) (h : state3Step t s = .ok p) :
    dataQueries ds p.2 = [] ∧ p.1.seqno = s.seqno ∧ p.1.state ≠ 1 := by
  simp only [state3Step] at h
  cases hg : dictGet s.outstanding s.desired_ackno with
  | none => simp only [hg] at h; exact Except.noConfusion h
  | some pkt =>
    simp only [hg] at h
    cases h
    exact ⟨rfl, rfl, by simp⟩

/-- Along every run of the control loop, the data-answered queries in
the log stay an initial segment `range k` of the naturals. -/
theorem runAux_query_inv (ds : Nat → Option Bytes) :
    ∀ (fuel : Nat) (recvs : List NetEvent) (clock : List ℚ) (s : TahoeState)
      (log : List Ev),
      dataQueries ds log = List.range (queryBound s) →
      ∃ k, dataQueries ds (runAux ds fuel recvs clock s log).2.1 = List.range k := by
  intro fuel
  induction fuel with
  | zero => exact fun recvs clock s log h => ⟨_, h⟩
  | succ fuel ih =>
    intro recvs clock s log h
    by_cases hdone : (s.have_more_data = false ∧ s.outstanding = [])
    · simp only [runAux, if_pos hdone]
      exact ⟨_, h⟩
    · by_cases h0 : s.state = 0
      · simp only [runAux, if_neg hdone, if_pos h0]
        exact ih recvs clock _ _ (queryInv_state0 ds s h0 log h)
      · by_cases h1 : s.state = 1
        · simp only [runAux, if_neg hdone, if_neg h0, if_pos h1]
          exact ih recvs clock.tail _ _ (queryInv_state1 ds (clock.headD 0) s h1 log h)
        · by_cases h2 : s.state = 2
          · simp only [runAux, if_neg hdone, if_neg h0, if_neg h1, if_pos h2]
            cases recvs with
            | nil => exact ⟨_, h⟩
            | cons ev rest =>
              cases hstep : state2Step ev s with
              | error c => simp only [hstep]; exact ⟨_, h⟩
              | ok p =>
                simp only [hstep]
                apply ih
                obtain ⟨hq, hseq, hst⟩ := state2Step_no_query ds ev s p hstep
                rw [dataQueries_append, hq, h]
                have hb : queryBound p.1 = queryBound s := by
                  simp [queryBound, hseq, hst, h2]
                simp [hb]
          · by_cases h3 : s.state = 3
            · simp only [runAux, if_neg hdone, if_neg h0, if_neg h1, if_neg h2,
                if_pos h3]
              cases hstep : state3Step (clock.headD 0) s with
              | error c => simp only [hstep]; exact ⟨_, h⟩
              | ok p =>
                simp only [hstep]
                apply ih
                obtain ⟨hq, hseq, hst⟩ := state3Step_no_query ds (clock.headD 0) s p hstep
                rw [dataQueries_append, hq, h]
                have hb : queryBound p.1 = queryBound s := by
                  simp [queryBound, hseq, hst, h1]
                simp [hb]
            · simp only [runAux, if_neg hdone, if_neg h0, if_neg h1, if_neg h2,
                if_neg h3]
              exact ⟨_, h⟩

/-- C8 (amended): within one session the data source is never queried
twice at a seqno for which it returned data — each data-answered query
advances `seqno`, and retransmission (state 3) queries nothing — so the
data-answered queries of any run are pairwise distinct. (After
end-of-data has been signaled, the exhausted seqno itself may be queried
again; see the counterexample.) -/
theorem c8_no_data_requery (ds : Nat → Option Bytes) (n t : ℚ) (fuel : Nat)
    (recvs : List NetEvent) (clock : List ℚ) :
    (dataQueries ds (runTahoe ds n t fuel recvs clock).2.1).Nodup := by
  obtain ⟨k, hk⟩ := runAux_query_inv ds fuel recvs clock (initState n t) []
    (by simp [dataQueries, queryBound, initState])
  simp only [runTahoe]
  rw [hk]
  exact List.nodup_range k

/-- A session over `ds3` in which a duplicate ACK for seqno 1 arrives
after the data source has already signaled end-of-data at seqno 3. -/
def requeryRun : TahoeState × List Ev × Option Crash :=
  runTahoe ds3 5 1 30
    [NetEvent.datagram (ackPkt 0) 1, NetEvent.datagram (ackPkt 1) 2,
     NetEvent.datagram (ackPkt 1) (5 / 2), NetEvent.datagram (ackPkt 2) 3]
    [0, 0, 0]

/-- C8 counterexample: in `requeryRun` the data source is invoked twice
with the same sequence number 3 — end-of-data is signaled at seqno 3,
then a duplicate ACK for seqno 1 routes the machine back to state 0,
which queries seqno 3 again — so the raw query sequence is not
duplicate-free, contradicting the claim that `next(seqno)` is never
invoked twice with the same sequence number. -/
theorem c8_counterexample :
    queriesOf requeryRun.2.1 = [0, 1, 2, 3, 3] ∧
    ¬ (queriesOf requeryRun.2.1).Nodup ∧
    requeryRun.2.2 = none := by with_unfolding_all decide

/-- A session over five one-byte chunks with `ssthresh = 2`: after ACKs
0 and 1 the window has grown to `5/2`, and the fourth send returns the
machine to state 0 although two segments are outstanding. -/
def fracWindowRun : TahoeState × List Ev × Option Crash :=
  runTahoe (fun k => if k < 5 then some [k] else none) 2 1 10
    [NetEvent.datagram (ackPkt 0) 1, NetEvent.datagram (ackPkt 1) 2]
    [0, 0, 0, 0]

/-- C4 counterexample: in the reachable state reached by `fracWindowRun`
(`cwnd = 5/2`, two outstanding segments after the latest send), the
machine admits originating a new segment — it is in state 0 — although
`2 < ⌊5/2⌋ = 2` is false, so the admission decision is not
`outstandingCount < ⌊cwnd⌋`. -/
theorem c4_counterexample :
    fracWindowRun.1.cwnd = 5 / 2 ∧
    fracWindowRun.1.outstanding.length = 2 ∧
    fracWindowRun.1.state = 0 ∧
    ¬ ((fracWindowRun.1.outstanding.length : ℤ) < ⌊fracWindowRun.1.cwnd⌋) := by
  with_unfolding_all decide

/-- Lookup returns `none` exactly off the key set. -/
theorem dictGet_eq_none_iff {α : Type} (l : List (Nat × α)) (k : Nat) :
    dictGet l k = none ↔ k ∉ l.map Prod.fst := by
  induction l with
  | nil => simp [dictGet]
  | cons kv rest ih =>
    obtain ⟨k1, v1⟩ := kv
    by_cases hk : k1 = k
    · subst hk
      simp [dictGet]
    · simp [dictGet, hk, ih, Ne.symm hk]

/-- Deleting a key from a dict with duplicate-free keys removes it. -/
theorem dictGet_dictDel_self {α : Type} (l : List (Nat × α)) (k : Nat)
    (h : (l.map Prod.fst).Nodup) : dictGet (dictDel l k) k = none := by
  induction l with
  | nil => simp [dictDel, dictGet]
  | cons kv rest ih =>
    obtain ⟨k1, v1⟩ := kv
    simp only [List.map_cons, List.nodup_cons] at h
    by_cases hk : k1 = k
    · subst hk
      simp only [dictDel, if_pos rfl]
      exact (dictGet_eq_none_iff rest k1).mpr h.1
    · simp only [dictDel, if_neg hk]
      simp [dictGet, hk, ih h.2]

/-- The first key of a non-empty dict is one of its keys. -/
theorem firstKeyD_mem {α : Type} (l : List (Nat × α)) (d : Nat) (h : l ≠ []) :
    firstKeyD l d ∈ l.map Prod.fst := by
  cases l with
  | nil => exact absurd rfl h
  | cons kv rest => simp [firstKeyD]

/-- Shared helper: the short form of `staleAckStep`, keeping only the
ledger and congestion-state conjuncts. -/
theorem staleAckStepShort (s : TahoeState) (data : Bytes) (tRecv tSent : ℚ)
    (m ackno : Nat)
    (hdec : decodeAck data = some (m, ackno))
    (hsent : dictGet s.send_times ackno = some tSent)
    (hout : dictGet s.outstanding ackno = none)
    (hdes : ackno ≠ s.desired_ackno) :
    ∃ s' l, state2Step (NetEvent.datagram data tRecv) s = .ok (s', l) ∧
      s'.outstanding = s.outstanding ∧ s'.cwnd = s.cwnd ∧
      s'.ssthresh = s.ssthresh := by
  obtain ⟨s', l, a, b, c, d, _⟩ :=
    staleAckStep s data tRecv tSent m ackno hdec hsent hout hdes
  exact ⟨s', l, a, b, c, d⟩

/-- C9: feeding the same ACK twice in succession changes the ledger and
the congestion state at most once. After a successful first delivery, a
second delivery of the same ACK datagram succeeds and leaves the ledger,
`cwnd` and `ssthresh` exactly as the first delivery left them. The
hypotheses `hnodup` (ledger keys are distinct) and `hseq` (an
acknowledged seqno differs from the next seqno to originate) hold in
every reachable state. -/
theorem c9_duplicate_ack (s : TahoeState) (data : Bytes) (tRecv tRecv2 : ℚ)
    (m ackno : Nat) (s1 : TahoeState) (l1 : List Ev)
    (hdec : decodeAck data = some (m, ackno))
    (hnodup : (s.outstanding.map Prod.fst).Nodup)
    (hseq : ackno ≠ s.seqno)
    (h1 : state2Step (NetEvent.datagram data tRecv) s = .ok (s1, l1)) :
    ∃ s2 l2, state2Step (NetEvent.datagram data tRecv2) s1 = .ok (s2, l2) ∧
      s2.outstanding = s1.outstanding ∧ s2.cwnd = s1.cwnd ∧
      s2.ssthresh = s1.ssthresh := by
  simp only [state2Step, hdec] at h1
  cases hsent : dictGet s.send_times ackno with
  | none =>
    rw [hsent] at h1
    exact Except.noConfusion h1
  | some tSent =>
    rw [hsent] at h1
    have hout_n : dictGet (if (dictGet s.outstanding ackno).isSome
        then dictDel s.outstanding ackno else s.outstanding) ackno = none := by
      by_cases ho : (dictGet s.outstanding ackno).isSome
      · rw [if_pos ho]
        exact dictGet_dictDel_self s.outstanding ackno hnodup
      · rw [if_neg ho]
        exact Option.not_isSome_iff_eq_none.mp ho
    have hfk : ackno ≠ firstKeyD (if (dictGet s.outstanding ackno).isSome
        then dictDel s.outstanding ackno else s.outstanding) s.seqno := by
      intro hcontra
      by_cases hemp : (if (dictGet s.outstanding ackno).isSome
          then dictDel s.outstanding ackno else s.outstanding) = []
      · rw [hemp] at hcontra
        exact hseq (by simpa [firstKeyD] using hcontra)
      · have hmem := firstKeyD_mem _ s.seqno hemp
        rw [← hcontra] at hmem
        exact (dictGet_eq_none_iff _ ackno).mp hout_n hmem
    by_cases hd : ackno = s.desired_ackno
    · simp only [if_pos hd] at h1
      cases h1
      exact staleAckStepShort _ data tRecv2 tSent m ackno hdec hsent hout_n hfk
    · simp only [if_neg hd] at h1
      cases h1
      exact staleAckStepShort _ data tRecv2 tSent m ackno hdec hsent hout_n hd

/-- The state after `afterFirstSend` processes the matching ACK 0 at
time 1: the ledger is empty and the window has grown to 2. -/
def afterFirstAck : TahoeState :=
  { timeout := 1, estimated_rtt := 1, dev_rtt := 0, send_times := [(0, 0)],
    cwnd := 2, ssthresh := 2, seqno := 1, desired_ackno := 1,
    body := some [9], have_more_data := true, outstanding := [], state := 0 }

/-- Witness for `c9_duplicate_ack`: the reachable state `afterFirstSend`
processes ACK 0 once (reaching `afterFirstAck`), and the second delivery
of the same ACK leaves ledger, `cwnd` and `ssthresh` unchanged. -/
theorem c9_witness :
    ∃ s2 l2, state2Step (NetEvent.datagram (ackPkt 0) 2) afterFirstAck =
        .ok (s2, l2) ∧
      s2.outstanding = afterFirstAck.outstanding ∧
      s2.cwnd = afterFirstAck.cwnd ∧
      s2.ssthresh = afterFirstAck.ssthresh :=
  c9_duplicate_ack afterFirstSend (ackPkt 0) 1 2 magic 0 afterFirstAck
    [Ev.traceAck 0, Ev.ackMatched 0] (by decide)
    (by with_unfolding_all decide) (by with_unfolding_all decide)
    (by with_unfolding_all decide)

/-- The clean three-chunk stop-and-wait session: every ACK arrives
immediately and matches. -/
def cleanSaw : SawState × List Ev × Option Crash :=
  runSaw ds3 30 [ackPkt 0, ackPkt 1, ackPkt 2]

/-- The clean three-chunk windowed (Tahoe) session over the same data
source and the same matching ACKs. -/
def cleanTahoe : TahoeState × List Ev × Option Crash :=
  runTahoe ds3 5 1 30
    [NetEvent.datagram (ackPkt 0) 1, NetEvent.datagram (ackPkt 1) 2,
     NetEvent.datagram (ackPkt 2) 3]
    [0, 0, 0]

/-- The three-chunk burst session with burst size 50. -/
def cleanBurst : BurstState × List Ev :=
  runBurst ds3 50 30

/-- C10 (amended): on the clean three-chunk scenario the variants agree
with the windowed machine. The stop-and-wait sender performs exactly 3
sends (packets 0, 1, 2), 3 ACK waits, and terminates without crashing;
the windowed machine on the same scenario performs exactly the same 3
sends — so no retransmission — 3 matched ACK waits, and terminates with
the ledger empty; the burst sender performs the same 3 sends and
terminates. In general, however, the senders are not behaviorally
equivalent to the windowed machine (see the counterexample). -/
theorem c10_clean_run :
    sendsOf cleanSaw.2.1 = [pkt3 0, pkt3 1, pkt3 2] ∧
    ackLinesOf cleanSaw.2.1 = [0, 1, 2] ∧
    cleanSaw.1.have_more_data = false ∧ cleanSaw.2.2 = none ∧
    sendsOf cleanTahoe.2.1 = [pkt3 0, pkt3 1, pkt3 2] ∧
    matchedOf cleanTahoe.2.1 = [0, 1, 2] ∧
    cleanTahoe.1.outstanding = [] ∧ cleanTahoe.1.have_more_data = false ∧
    cleanTahoe.2.2 = none ∧
    sendsOf cleanBurst.2 = [pkt3 0, pkt3 1, pkt3 2] ∧
    cleanBurst.1.have_more_data = false := by with_unfolding_all decide

/-- C10 counterexample: the stop-and-wait sender is not behaviorally
equivalent to (nor a refinement of) the windowed machine. Both are given
the same environment — a one-chunk data source and a single ACK numbered
7, which was never sent; the windowed machine is still at window 1 at
that point, so fixing its window at 1 changes nothing. The stop-and-wait
sender ignores the ACK number, completes its send, and terminates
normally, while the windowed machine aborts with an uncaught `KeyError`:
the two observable behaviors differ. -/
theorem c10_counterexample :
    (runSaw ds1 30 [ackPkt 7]).2.2 = none ∧
    (runSaw ds1 30 [ackPkt 7]).1.have_more_data = false ∧
    sendsOf (runSaw ds1 30 [ackPkt 7]).2.1 = [encodeHeader magic 0 ++ [9]] ∧
    (runTahoe ds1 5 1 30 [NetEvent.datagram (ackPkt 7) 1] [0]).1.cwnd = 1 ∧
    (runTahoe ds1 5 1 30 [NetEvent.datagram (ackPkt 7) 1] [0]).2.2 =
      some Crash.keyError := by with_unfolding_all decide
